import Mathlib

/- Verification of the to_arrow_device / to_arrow_schema interop core
   (cpp/src/interop/to_arrow_device.cu), as a shallow embedding. -/

namespace Cudf

/-- cudf type_id enumeration (the subset reachable from the interop code). -/
inductive TypeId where
  | EMPTY
  | INT8 | INT16 | INT32 | INT64
  | UINT8 | UINT16 | UINT32 | UINT64
  | FLOAT32 | FLOAT64
  | BOOL8
  | TIMESTAMP_DAYS | TIMESTAMP_SECONDS | TIMESTAMP_MILLISECONDS
  | TIMESTAMP_MICROSECONDS | TIMESTAMP_NANOSECONDS
  | DURATION_SECONDS | DURATION_MILLISECONDS
  | DURATION_MICROSECONDS | DURATION_NANOSECONDS
  | DECIMAL32 | DECIMAL64 | DECIMAL128
  | STRING | LIST | DICTIONARY32 | STRUCT
deriving DecidableEq, Repr

/-- cudf data_type: a type id plus a scale (meaningful for decimals). -/
structure DataType where
  id : TypeId
  scale : Int
deriving DecidableEq, Repr

/-- Arrow time unit (nanoarrow ArrowTimeUnit). -/
inductive TimeUnit where
  | second | milli | micro | nano
deriving DecidableEq, Repr

/-- nanoarrow ArrowType tags used by this code. -/
inductive ArrowType where
  | na | bool | int8 | int16 | int32 | int64
  | uint8 | uint16 | uint32 | uint64
  | float | double | date32
  | timestamp | duration
  | decimal128 | string | list | struct
  | uninitialized
deriving DecidableEq, Repr

/-- id_to_arrow_type: the primitive type-id to ArrowType switch; its default
branch is CUDF_FAIL (modelled as an error). -/
def idToArrowType (id : TypeId) : Except String ArrowType :=
  match id with
  | .BOOL8 => .ok .bool
  | .INT8 => .ok .int8
  | .INT16 => .ok .int16
  | .INT32 => .ok .int32
  | .INT64 => .ok .int64
  | .UINT8 => .ok .uint8
  | .UINT16 => .ok .uint16
  | .UINT32 => .ok .uint32
  | .UINT64 => .ok .uint64
  | .FLOAT32 => .ok .float
  | .FLOAT64 => .ok .double
  | .TIMESTAMP_DAYS => .ok .date32
  | _ => .error "Unsupported type_id conversion to arrow type"

/-- cudf is_rep_layout_compatible trait: numeric, chrono or boolean types
(true for BOOL8 as well, since bool is arithmetic). -/
def isRepLayoutCompatible (id : TypeId) : Bool :=
  match id with
  | .INT8 | .INT16 | .INT32 | .INT64
  | .UINT8 | .UINT16 | .UINT32 | .UINT64
  | .FLOAT32 | .FLOAT64 | .BOOL8
  | .TIMESTAMP_DAYS | .TIMESTAMP_SECONDS | .TIMESTAMP_MILLISECONDS
  | .TIMESTAMP_MICROSECONDS | .TIMESTAMP_NANOSECONDS
  | .DURATION_SECONDS | .DURATION_MILLISECONDS
  | .DURATION_MICROSECONDS | .DURATION_NANOSECONDS => true
  | _ => false

/-- A device buffer: its device address and its logical contents, viewed as a
list of machine words of the element width of the owning column. -/
structure DeviceBuffer where
  ptr : Nat
  words : List Int
deriving DecidableEq, Repr

/-- What an ArrowBufferAllocator captured through its private_data field:
nothing, a moved-in owning device buffer (device_buffer_finalize), or the
cudaEvent handle of the sync-event deallocator. -/
inductive AllocPayload where
  | none
  | devBuffer (b : DeviceBuffer)
  | cudaEvent (e : Nat)
deriving DecidableEq, Repr

/-- One buffer slot of an ArrowArray: the raw data pointer plus the
deallocator payload attached via ArrowBufferSetAllocator. -/
structure ArrowBuffer where
  dataPtr : Option Nat
  payload : AllocPayload
deriving DecidableEq, Repr

/-- A freshly initialized buffer slot (null data, default allocator). -/
def emptyArrowBuffer : ArrowBuffer := { dataPtr := Option.none, payload := .none }

/-- The three buffer slots a nanoarrow array carries. -/
def initBuffers : List ArrowBuffer := [emptyArrowBuffer, emptyArrowBuffer, emptyArrowBuffer]

/-- device_buffer_finalize: releasing a buffer slot frees exactly the device
buffers its deallocator captured. -/
def freeOnRelease (p : AllocPayload) : List DeviceBuffer :=
  match p with
  | .devBuffer b => [b]
  | _ => []

/-- The sync-event deallocator: releasing the slot destroys exactly the
captured cuda events. -/
def destroyOnRelease (p : AllocPayload) : List Nat :=
  match p with
  | .cudaEvent e => [e]
  | _ => []

/-- A leaf ArrowArray node (no children are ever populated on the array path
of this file: nested array conversion is unsupported). -/
structure ArrowArray where
  arrowType : ArrowType
  length : Nat
  null_count : Nat
  buffers : List ArrowBuffer
deriving DecidableEq, Repr

/-- ArrowArrayInitFromType for a leaf array node. -/
def arrowArrayInitFromType (t : ArrowType) : ArrowArray :=
  { arrowType := t, length := 0, null_count := 0, buffers := initBuffers }

/-- set_buffer: point slot i at the device buffer and attach a deallocator
owning it (the unique_ptr is moved into the allocator private data). -/
def setBufferSlot (db : DeviceBuffer) (i : Nat) (a : ArrowArray) : ArrowArray :=
  { a with buffers := a.buffers.set i { dataPtr := some db.ptr, payload := .devBuffer db } }

/-- The device buffers whose ownership was captured by an array node. -/
def capturedBuffers (a : ArrowArray) : List DeviceBuffer :=
  a.buffers.filterMap fun b =>
    match b.payload with
    | .devBuffer d => some d
    | _ => Option.none

/-- An owning cudf column, as the array path consumes it: logical type, size,
null count, the owned data buffer and the optional owned null mask. The data
buffer words are the column elements (one word per element). -/
structure Column where
  dtype : DataType
  size : Nat
  null_count : Nat
  data : DeviceBuffer
  null_mask : Option DeviceBuffer
deriving DecidableEq, Repr

/-- An owning cudf table. -/
structure Table where
  num_rows : Nat
  columns : List Column
deriving DecidableEq, Repr

/-- The sign-extension of one narrow decimal value into wordsPerValue narrow
words: the lowest-order word is the value, every higher-order word repeats the
sign (-1 if negative else 0), as in the unsupported_decimals_to_arrow kernel. -/
def widenValue (wordsPerValue : Nat) (v : Int) : List Int :=
  v :: List.replicate (wordsPerValue - 1) (if v < 0 then -1 else 0)

/-- The full contents of the widened decimal buffer produced by the
unsupported_decimals_to_arrow thrust kernel: element i occupies words
i*wordsPerValue .. (i+1)*wordsPerValue - 1. -/
def widenWords (wordsPerValue : Nat) (vals : List Int) : List Int :=
  vals.flatMap (widenValue wordsPerValue)

/-- Modelled from the spec: cudf bools_to_mask (not under src/), the
bit-packing utility used by the bool conversion path; bit i of the produced
mask is set iff the source boolean value at row i is true. The model stores
one word per bit. -/
def boolsToMask (vals : List Int) : List Int :=
  vals.map fun v => if v ≠ 0 then 1 else 0

/-- The error message raised by the unsupported array-path specializations. -/
def unsupportedDeviceMsg : String := "Unsupported type for to_arrow_device"

/-- The generic rep-layout-compatible array conversion path: pick the storage
ArrowType, set length and null count from the column, then re-own the null
mask in slot 0 (when present) and the data buffer in slot 1, zero copy. -/
def genericToArrowDevice (c : Column) : Except String ArrowArray := do
  let storage : ArrowType ←
    match c.dtype.id with
    | .TIMESTAMP_SECONDS | .TIMESTAMP_MILLISECONDS
    | .TIMESTAMP_MICROSECONDS | .TIMESTAMP_NANOSECONDS => Except.ok ArrowType.timestamp
    | .DURATION_SECONDS | .DURATION_MILLISECONDS
    | .DURATION_MICROSECONDS | .DURATION_NANOSECONDS => Except.ok ArrowType.duration
    | id => idToArrowType id
  let tmp := { arrowArrayInitFromType storage with length := c.size, null_count := c.null_count }
  let tmp :=
    match c.null_mask with
    | some nm => setBufferSlot nm 0 tmp
    | Option.none => tmp
  return setBufferSlot c.data 1 tmp

/-- unsupported_decimals_to_arrow: allocate a new wide buffer at the fresh
device address, fill it by the sign-extension kernel, keep the null mask zero
copy in slot 0 but attach the new wide buffer (not the original data) in
slot 1. The precision argument of the source function is unused by it. -/
def unsupportedDecimalsToArrow (wordsPerValue : Nat) (c : Column) (fresh : Nat) :
    Except String ArrowArray :=
  let buf : DeviceBuffer := { ptr := fresh, words := widenWords wordsPerValue (c.data.words.take c.size) }
  let tmp := { arrowArrayInitFromType .decimal128 with length := c.size, null_count := c.null_count }
  let tmp :=
    match c.null_mask with
    | some nm => setBufferSlot nm 0 tmp
    | Option.none => tmp
  .ok (setBufferSlot buf 1 tmp)

/-- dispatch_to_arrow_device: the array-path type dispatch, with the explicit
specializations of the source (bool repacks bits, decimal32/64 widen,
decimal128 is zero copy, string/list/dictionary/struct fail fast). `fresh` is
the device address handed out for a newly allocated buffer. -/
def dispatchToArrowDevice (c : Column) (fresh : Nat) : Except String ArrowArray :=
  match c.dtype.id with
  | .BOOL8 =>
    let tmp := { arrowArrayInitFromType .bool with length := c.size, null_count := c.null_count }
    let bitmask : DeviceBuffer := { ptr := fresh, words := boolsToMask (c.data.words.take c.size) }
    let tmp :=
      match c.null_mask with
      | some nm => setBufferSlot nm 0 tmp
      | Option.none => tmp
    .ok (setBufferSlot bitmask 1 tmp)
  | .DECIMAL32 => unsupportedDecimalsToArrow 4 c fresh
  | .DECIMAL64 => unsupportedDecimalsToArrow 2 c fresh
  | .DECIMAL128 =>
    let tmp := { arrowArrayInitFromType .decimal128 with length := c.size, null_count := c.null_count }
    let tmp :=
      match c.null_mask with
      | some nm => setBufferSlot nm 0 tmp
      | Option.none => tmp
    .ok (setBufferSlot c.data 1 tmp)
  | .STRING | .LIST | .DICTIONARY32 | .STRUCT => .error unsupportedDeviceMsg
  | .EMPTY => .error "Invalid type_id."
  | _ => genericToArrowDevice c

/-- The types the array-export dispatch rejects. -/
def deviceUnsupported (id : TypeId) : Bool :=
  match id with
  | .STRING | .LIST | .DICTIONARY32 | .STRUCT => true
  | _ => false

/-- The types whose array conversion re-owns the original data buffer zero
copy (generic rep-layout-compatible path, which bool does not reach, plus the
decimal128 specialization). -/
def zeroCopyPath (id : TypeId) : Bool :=
  (isRepLayoutCompatible id && !(id == .BOOL8)) || id == .DECIMAL128

/-- The conversion loop of to_arrow_device over the released columns: EMPTY
columns become null-typed children directly, other columns go through the
dispatcher; the first failure stops the loop. Returns the children built
before the failure (whose buffers were already captured) and the error. -/
def convertCols : List Column → Nat → List ArrowArray × Option String
  | [], _ => ([], Option.none)
  | c :: cs, fresh =>
    if c.dtype.id = TypeId.EMPTY then
      let child : ArrowArray :=
        { arrowType := .na, length := c.size, null_count := c.size, buffers := initBuffers }
      let rest := convertCols cs (fresh + 1)
      (child :: rest.1, rest.2)
    else
      match dispatchToArrowDevice c fresh with
      | .ok arr =>
        let rest := convertCols cs (fresh + 1)
        (arr :: rest.1, rest.2)
      | .error m => ([], some m)

/-- ArrowDeviceType values relevant here. -/
inductive ArrowDeviceKind where
  | cpu | cuda | cudaHost | cudaManaged
deriving DecidableEq, Repr

/-- The top-level struct array node returned by to_arrow_device, with its
children. -/
structure TopArrowArray where
  arrowType : ArrowType
  length : Nat
  null_count : Nat
  buffers : List ArrowBuffer
  children : List ArrowArray
deriving DecidableEq, Repr

/-- The ArrowDeviceArray wrapper: device id, device kind, the sync event
handle and the wrapped array. -/
structure ArrowDeviceArrayRes where
  device_id : Int
  device_type : ArrowDeviceKind
  sync_event : Nat
  array : TopArrowArray
deriving DecidableEq, Repr

/-- Outcome of to_arrow_device: success, or a thrown error together with the
device buffers whose ownership had already been captured by then-built
children (the source releases the table before converting anything). -/
inductive ConvResult where
  | ok (res : ArrowDeviceArrayRes)
  | failed (msg : String) (transferred : List DeviceBuffer)
deriving DecidableEq, Repr

/-- to_arrow_device: release the table, convert every column in order, then
create one cuda event (handle `ev`), record it on the stream, and attach it to
buffer slot 0 of the top-level struct node with a deallocator that destroys
it. The stream is modelled as the list of events recorded on it. -/
def toArrowDevice (t : Table) (dev : Int) (ev : Nat) (fresh : Nat) (stream : List Nat) :
    ConvResult × List Nat :=
  let cols := t.columns
  let conv := convertCols cols fresh
  match conv.2 with
  | some msg => (.failed msg (conv.1.flatMap capturedBuffers), stream)
  | Option.none =>
    let top : TopArrowArray :=
      { arrowType := .struct
        length := t.num_rows
        null_count := 0
        buffers := initBuffers.set 0 { dataPtr := Option.none, payload := .cudaEvent ev }
        children := conv.1 }
    (.ok { device_id := dev, device_type := .cuda, sync_event := ev, array := top }, stream ++ [ev])

/-- Caller-supplied column metadata: a name plus ordered child metadata,
mirroring the column child structure. -/
inductive ColumnMetadata where
  | mk (name : String) (children_meta : List ColumnMetadata)
deriving Repr

/-- The name of a metadata entry. -/
def ColumnMetadata.name : ColumnMetadata → String
  | .mk n _ => n

/-- The child metadata list of a metadata entry. -/
def ColumnMetadata.children_meta : ColumnMetadata → List ColumnMetadata
  | .mk _ cs => cs

/-- A non-owning column view, as the schema path consumes it: logical type,
nullability and child views. -/
inductive ColumnView where
  | mk (dtype : DataType) (nullable : Bool) (children : List ColumnView)
deriving Repr

/-- The data type of a column view. -/
def ColumnView.dtype : ColumnView → DataType
  | .mk dt _ _ => dt

/-- Whether the column view is nullable (has a null mask). -/
def ColumnView.nullable : ColumnView → Bool
  | .mk _ nb _ => nb

/-- The child views of a column view. -/
def ColumnView.children : ColumnView → List ColumnView
  | .mk _ _ cs => cs

/-- An ArrowSchema node: type tag, name, nullable flag, the datetime unit and
decimal precision/scale parameters, children, and the dictionary slot (empty
or a single node). -/
inductive ArrowSchema where
  | mk (arrowType : ArrowType) (name : String) (nullableFlag : Bool)
       (timeUnit : Option TimeUnit) (precision : Int) (scale : Int)
       (children : List ArrowSchema) (dictionary : List ArrowSchema)
deriving Repr

/-- The type tag of a schema node. -/
def ArrowSchema.arrowType : ArrowSchema → ArrowType
  | .mk t _ _ _ _ _ _ _ => t

/-- The name of a schema node. -/
def ArrowSchema.name : ArrowSchema → String
  | .mk _ nm _ _ _ _ _ _ => nm

/-- The nullable flag of a schema node. -/
def ArrowSchema.nullableFlag : ArrowSchema → Bool
  | .mk _ _ nb _ _ _ _ _ => nb

/-- The datetime unit of a schema node. -/
def ArrowSchema.timeUnit : ArrowSchema → Option TimeUnit
  | .mk _ _ _ tu _ _ _ _ => tu

/-- The decimal precision of a schema node. -/
def ArrowSchema.precision : ArrowSchema → Int
  | .mk _ _ _ _ p _ _ _ => p

/-- The decimal scale of a schema node. -/
def ArrowSchema.scale : ArrowSchema → Int
  | .mk _ _ _ _ _ s _ _ => s

/-- The children of a schema node. -/
def ArrowSchema.children : ArrowSchema → List ArrowSchema
  | .mk _ _ _ _ _ _ ch _ => ch

/-- The dictionary slot of a schema node. -/
def ArrowSchema.dictionary : ArrowSchema → List ArrowSchema
  | .mk _ _ _ _ _ _ _ d => d

/-- Modelled from the spec: nanoarrow ArrowSchemaInit (vendored library, not
under src/) produces a node with no type, a given name and the nullable flag
set by default. -/
def initSchemaNode (nm : String) : ArrowSchema :=
  .mk .uninitialized nm true Option.none 0 0 [] []

/-- ArrowSchemaSetType for a type tag: sets the tag, leaves the rest. -/
def ArrowSchema.setTypeLeaf : ArrowSchema → ArrowType → ArrowSchema
  | .mk _ nm nb tu p s ch d, t => .mk t nm nb tu p s ch d

/-- ArrowSchemaSetTypeDateTime: sets the tag and the time unit. -/
def ArrowSchema.setTypeDateTime : ArrowSchema → ArrowType → TimeUnit → ArrowSchema
  | .mk _ nm nb _ p s ch d, t, u => .mk t nm nb (some u) p s ch d

/-- ArrowSchemaSetTypeDecimal with the 128-bit decimal tag: sets precision
and scale. -/
def ArrowSchema.setTypeDecimal : ArrowSchema → Int → Int → ArrowSchema
  | .mk _ nm nb tu _ _ ch d, p, s => .mk .decimal128 nm nb tu p s ch d

/-- ArrowSchemaSetName. -/
def ArrowSchema.setName : ArrowSchema → String → ArrowSchema
  | .mk t _ nb tu p s ch d, nm => .mk t nm nb tu p s ch d

/-- Setting the node flags from a column nullability. -/
def ArrowSchema.setNullable : ArrowSchema → Bool → ArrowSchema
  | .mk t nm _ tu p s ch d, nb => .mk t nm nb tu p s ch d

/-- Replacing the children of a node. -/
def ArrowSchema.withChildren : ArrowSchema → List ArrowSchema → ArrowSchema
  | .mk t nm nb tu p s _ d, ch => .mk t nm nb tu p s ch d

/-- Replacing the dictionary slot of a node. -/
def ArrowSchema.withDictionary : ArrowSchema → List ArrowSchema → ArrowSchema
  | .mk t nm nb tu p s ch _, d => .mk t nm nb tu p s ch d

/-- The struct cardinality error message (the apostrophe of the source text is
elided). -/
def structMismatchMsg : String := "Number of field names and number of children does not match"

/-- The to_arrow_schema metadata-count error message (the apostrophe of the
source text is elided). -/
def topMismatchMsg : String := "columns metadata should be equal to the number of columns in table"

/-- Modelled from the spec: cudf::detail::max_precision for 32-bit decimal
storage (not under src/) — the maximum number of decimal digits a 32-bit
integer can represent, 9. -/
def maxPrecision32 : Int := 9

/-- Modelled from the spec: cudf::detail::max_precision for 64-bit decimal
storage, 18 digits. -/
def maxPrecision64 : Int := 18

/-- Modelled from the spec: cudf::detail::max_precision for 128-bit decimal
storage, 38 digits. -/
def maxPrecision128 : Int := 38

/-- The metadata used for the single list child: the first child entry when
provided, else a default entry named "element". -/
def listChildMeta (m : ColumnMetadata) : ColumnMetadata :=
  match m.children_meta with
  | [] => .mk "element" []
  | cm :: _ => cm

/-- The metadata used for the dictionary keys: the first child entry when
provided, else a default entry named "keys". -/
def dictKeysMeta (m : ColumnMetadata) : ColumnMetadata :=
  match m.children_meta with
  | [] => .mk "keys" []
  | cm :: _ => cm

mutual

/-- dispatch_to_arrow_type together with its explicit specializations: the
recursive schema builder. The second component counts the schema nodes
(children and dictionary nodes) allocated during the call, including the
allocations performed before a failure. -/
def dispatchToArrowType (col : ColumnView) (meta : ColumnMetadata) (out : ArrowSchema) :
    Except String ArrowSchema × Nat :=
  match col with
  | .mk dt _nb children =>
    match dt.id with
    | .BOOL8 => (.ok (out.setTypeLeaf .bool), 0)
    | .STRING => (.ok (out.setTypeLeaf .string), 0)
    | .DECIMAL32 => (.ok (out.setTypeDecimal maxPrecision32 (-dt.scale)), 0)
    | .DECIMAL64 => (.ok (out.setTypeDecimal maxPrecision64 (-dt.scale)), 0)
    | .DECIMAL128 => (.ok (out.setTypeDecimal maxPrecision128 (-dt.scale)), 0)
    | .TIMESTAMP_SECONDS => (.ok (out.setTypeDateTime .timestamp .second), 0)
    | .TIMESTAMP_MILLISECONDS => (.ok (out.setTypeDateTime .timestamp .milli), 0)
    | .TIMESTAMP_MICROSECONDS => (.ok (out.setTypeDateTime .timestamp .micro), 0)
    | .TIMESTAMP_NANOSECONDS => (.ok (out.setTypeDateTime .timestamp .nano), 0)
    | .DURATION_SECONDS => (.ok (out.setTypeDateTime .duration .second), 0)
    | .DURATION_MILLISECONDS => (.ok (out.setTypeDateTime .duration .milli), 0)
    | .DURATION_MICROSECONDS => (.ok (out.setTypeDateTime .duration .micro), 0)
    | .DURATION_NANOSECONDS => (.ok (out.setTypeDateTime .duration .nano), 0)
    | .STRUCT =>
      if meta.children_meta.length = children.length then
        match structChildren children meta.children_meta meta.name with
        | (.error e, n) => (.error e, children.length + n)
        | (.ok kids, n) => (.ok ((out.setTypeLeaf .struct).withChildren kids), children.length + n)
      else (.error structMismatchMsg, 0)
    | .LIST => dispatchListToArrowType children meta out
    | .DICTIONARY32 => dispatchDictToArrowType children meta out
    | .EMPTY => (.error "Invalid type_id.", 0)
    | other =>
      match idToArrowType other with
      | .error e => (.error e, 0)
      | .ok t => (.ok (out.setTypeLeaf t), 0)
termination_by sizeOf col

/-- The list specialization: ArrowSchemaSetType(LIST) allocates one child
(named "item" by the library); the EMPTY check, the nullability read and the
recursive build all use input.child(0) — in the cudf list layout child 0 is
the int32 OFFSETS column, not the element column (which sits at child 1) —
with the first child metadata entry as the recursion metadata. -/
def dispatchListToArrowType (children : List ColumnView) (meta : ColumnMetadata)
    (out : ArrowSchema) : Except String ArrowSchema × Nat :=
  match children with
  | [] => (.error "list column has no children", 1)
  | child :: _ =>
    if child.dtype.id = TypeId.EMPTY then
      (.ok ((out.setTypeLeaf .list).withChildren [(initSchemaNode "item").setTypeLeaf .na]), 1)
    else
      let out1 := (out.setTypeLeaf .list).setNullable child.nullable
      match dispatchToArrowType child (listChildMeta meta) (initSchemaNode "item") with
      | (.error e, n) => (.error e, 1 + n)
      | (.ok built, n) => (.ok (out1.withChildren [built]), 1 + n)
termination_by sizeOf children

/-- The dictionary specialization: allocate the dictionary slot, set the node
type from the indices column type, and build the keys schema recursively into
the dictionary slot. -/
def dispatchDictToArrowType (children : List ColumnView) (meta : ColumnMetadata)
    (out : ArrowSchema) : Except String ArrowSchema × Nat :=
  match children with
  | indices :: keys :: _ =>
    match idToArrowType indices.dtype.id with
    | .error e => (.error e, 1)
    | .ok t =>
      match dispatchToArrowType keys (dictKeysMeta meta) (initSchemaNode "") with
      | (.error e, n) => (.error e, 1 + n)
      | (.ok builtKeys, n) => (.ok ((out.setTypeLeaf t).withDictionary [builtKeys]), 1 + n)
  | _ => (.error "dictionary column has no children", 1)
termination_by sizeOf children

/-- The per-field loop of the struct schema case: each child node is named
with the PARENT metadata name (as the source does), flagged with the child
column own nullability; EMPTY children become null-type leaves without
recursion, all others recurse with their own child metadata entry. -/
def structChildren (cols : List ColumnView) (metas : List ColumnMetadata) (parentName : String) :
    Except String (List ArrowSchema) × Nat :=
  match cols, metas with
  | [], _ => (.ok [], 0)
  | _ :: _, [] => (.error structMismatchMsg, 0)
  | c :: cs, m :: ms =>
    let child0 := ((initSchemaNode "").setName parentName).setNullable c.nullable
    if c.dtype.id = TypeId.EMPTY then
      match structChildren cs ms parentName with
      | (.error e, n) => (.error e, n)
      | (.ok rest, n) => (.ok ((child0.setTypeLeaf .na) :: rest), n)
    else
      match dispatchToArrowType c m child0 with
      | (.error e, n) => (.error e, n)
      | (.ok built, n) =>
        match structChildren cs ms parentName with
        | (.error e, n2) => (.error e, n + n2)
        | (.ok rest, n2) => (.ok (built :: rest), n + n2)
termination_by sizeOf cols

end

/-- The per-column loop of to_arrow_schema: each table-level child node IS
named with its own metadata entry name, flagged with the column nullability;
EMPTY columns become null-type leaves without recursion. -/
def topChildren (cols : List ColumnView) (metas : List ColumnMetadata) :
    Except String (List ArrowSchema) × Nat :=
  match cols, metas with
  | [], _ => (.ok [], 0)
  | _ :: _, [] => (.error topMismatchMsg, 0)
  | c :: cs, m :: ms =>
    let child0 := ((initSchemaNode "").setName m.name).setNullable c.nullable
    if c.dtype.id = TypeId.EMPTY then
      match topChildren cs ms with
      | (.error e, n) => (.error e, n)
      | (.ok rest, n) => (.ok ((child0.setTypeLeaf .na) :: rest), n)
    else
      match dispatchToArrowType c m child0 with
      | (.error e, n) => (.error e, n)
      | (.ok built, n) =>
        match topChildren cs ms with
        | (.error e, n2) => (.error e, n + n2)
        | (.ok rest, n2) => (.ok (built :: rest), n + n2)

/-- to_arrow_schema: checks the metadata count against the column count, then
builds a struct root whose children are built per column. The second
component counts allocated schema nodes as in the dispatcher. -/
def toArrowSchema (cols : List ColumnView) (metas : List ColumnMetadata) :
    Except String ArrowSchema × Nat :=
  if metas.length = cols.length then
    let root := (initSchemaNode "").setTypeLeaf .struct
    match topChildren cols metas with
    | (.error e, n) => (.error e, cols.length + n)
    | (.ok kids, n) => (.ok (root.withChildren kids), cols.length + n)
  else (.error topMismatchMsg, 0)

/-! Example inputs used by concrete theorems. -/

/-- A struct column with two primitive fields. -/
def exStructCol : ColumnView :=
  .mk ⟨.STRUCT, 0⟩ false [.mk ⟨.INT32, 0⟩ false [], .mk ⟨.INT64, 0⟩ true []]

/-- Metadata for exStructCol: the struct is named s, its fields a and b. -/
def exStructMeta : ColumnMetadata := .mk "s" [.mk "a" [], .mk "b" []]

/-- A list column of int64 elements in the cudf layout: child 0 is the int32
offsets column, child 1 the element column. -/
def exListCol : ColumnView :=
  .mk ⟨.LIST, 0⟩ true [.mk ⟨.INT32, 0⟩ false [], .mk ⟨.INT64, 0⟩ true []]

/-- Metadata for exListCol: the list is named l, the child entry foo. -/
def exListMeta : ColumnMetadata := .mk "l" [.mk "foo" []]

/-- A small owned int32 column: two elements at device address 5. -/
def exIntColumn : Column := ⟨⟨.INT32, 0⟩, 2, 0, ⟨5, [7, 8]⟩, Option.none⟩

/-- A string column (the array path rejects it). -/
def exStringColumn : Column := ⟨⟨.STRING, 0⟩, 2, 0, ⟨9, []⟩, Option.none⟩

/-- A table whose second column is a string column. -/
def exTable : Table := ⟨2, [exIntColumn, exStringColumn]⟩

/-- A boolean column at device address 5. -/
def exBoolColumn : Column := ⟨⟨.BOOL8, 0⟩, 2, 0, ⟨5, [1, 0]⟩, Option.none⟩

/-- A decimal32 column with a positive and a negative element. -/
def exDecimalColumn : Column := ⟨⟨.DECIMAL32, 1⟩, 2, 0, ⟨6, [7, -8]⟩, Option.none⟩

/-- An EMPTY column of three rows. -/
def exEmptyColumn : Column := ⟨⟨.EMPTY, 0⟩, 3, 0, ⟨4, []⟩, Option.none⟩

/-- A fully supported table: an int32 column and an EMPTY column. -/
def exOkTable : Table := ⟨2, [exIntColumn, exEmptyColumn]⟩

/-- The array node the dispatcher produces for exIntColumn. -/
def exIntArray : ArrowArray :=
  ⟨.int32, 2, 0, [emptyArrowBuffer, ⟨some 5, .devBuffer ⟨5, [7, 8]⟩⟩, emptyArrowBuffer]⟩

/-- The device-array result produced for exOkTable on device 0 with event
handle 50. -/
def exOkRes : ArrowDeviceArrayRes :=
  ⟨0, .cuda, 50,
    ⟨.struct, 2, 0,
      [⟨Option.none, .cudaEvent 50⟩, emptyArrowBuffer, emptyArrowBuffer],
      [exIntArray, ⟨.na, 3, 3, initBuffers⟩]⟩⟩

/-- The child names of a successfully built schema node. -/
def childNames (r : Except String ArrowSchema × Nat) : Option (List String) :=
  match r.1 with
  | .ok s => some (s.children.map ArrowSchema.name)
  | .error _ => Option.none

/-- The name of the first child of a successfully built schema node. -/
def firstChildName (r : Except String ArrowSchema × Nat) : Option String :=
  match r.1 with
  | .ok s => (s.children.map ArrowSchema.name).head?
  | .error _ => Option.none

/-- The type tag of the first child of a successfully built schema node. -/
def firstChildType (r : Except String ArrowSchema × Nat) : Option ArrowType :=
  match r.1 with
  | .ok s => (s.children.map ArrowSchema.arrowType).head?
  | .error _ => Option.none

/-- The data pointer stored in buffer slot 1 of a successful array
conversion. -/
def slot1DataPtr (r : Except String ArrowArray) : Option (Option Nat) :=
  match r with
  | .ok arr => (arr.buffers.get? 1).map ArrowBuffer.dataPtr
  | .error _ => Option.none

/-! Theorems. -/

/-- C3 (code bug): for a struct column the schema builder names every child
schema node with the PARENT metadata name instead of the child own metadata
entry name: on a struct named s whose field metadata names are a and b, both
produced schema children are named s. -/
theorem c3_struct_child_names :
    childNames (dispatchToArrowType exStructCol exStructMeta ((initSchemaNode "").setName "s")) =
      some ["s", "s"] ∧ (["s", "s"] : List String) ≠ ["a", "b"] := by
  constructor
  · simp [childNames, dispatchToArrowType, structChildren, exStructCol, exStructMeta,
      initSchemaNode, ArrowSchema.setName, ArrowSchema.setNullable, ArrowSchema.setTypeLeaf,
      ArrowSchema.withChildren, ArrowSchema.children, ArrowSchema.name,
      ColumnMetadata.children_meta, ColumnMetadata.name, ColumnView.dtype, ColumnView.nullable,
      idToArrowType]
  · decide

/-- C4 (confirmed): schema construction fails on metadata shape mismatches:
to_arrow_schema errors (allocating nothing) when the metadata count differs
from the column count, and the struct case errors with zero schema nodes
allocated for that struct when the child-name count differs from the child
count. -/
theorem c4_shape_mismatch :
    (∀ (cols : List ColumnView) (metas : List ColumnMetadata),
        metas.length ≠ cols.length →
        toArrowSchema cols metas = (.error topMismatchMsg, 0)) ∧
    (∀ (dt : DataType) (nb : Bool) (children : List ColumnView)
        (meta : ColumnMetadata) (out : ArrowSchema),
        dt.id = TypeId.STRUCT →
        meta.children_meta.length ≠ children.length →
        dispatchToArrowType (.mk dt nb children) meta out = (.error structMismatchMsg, 0)) := by
  constructor
  · intro cols metas h
    simp [toArrowSchema, h]
  · intro dt nb children meta out hid h
    rcases dt with ⟨id, sc⟩
    simp only [DataType.id] at hid
    subst hid
    simp [dispatchToArrowType, h]

/-- C4 witness: both mismatch failures at concrete inputs. -/
theorem c4_witness :
    toArrowSchema [ColumnView.mk ⟨.INT32, 0⟩ false []] [] = (.error topMismatchMsg, 0) ∧
    dispatchToArrowType (.mk ⟨.STRUCT, 0⟩ false [.mk ⟨.INT32, 0⟩ false []]) (.mk "s" [])
      (initSchemaNode "s") = (.error structMismatchMsg, 0) :=
  ⟨c4_shape_mismatch.1 _ _ (by decide),
   c4_shape_mismatch.2 _ _ _ _ _ rfl (by decide)⟩

/-- C7 (confirmed): the schema type mapper sends decimal columns of 32, 64
and 128 bit storage to the single 128-bit decimal tag — never a narrower
external decimal — with precision the maximum precision of the storage type
and scale the negation of the column scale. -/
theorem c7_decimal_schema (dt : DataType) (nb : Bool) (children : List ColumnView)
    (meta : ColumnMetadata) (out : ArrowSchema) (p : Int)
    (h : (dt.id = TypeId.DECIMAL32 ∧ p = maxPrecision32) ∨
         (dt.id = TypeId.DECIMAL64 ∧ p = maxPrecision64) ∨
         (dt.id = TypeId.DECIMAL128 ∧ p = maxPrecision128)) :
    ∃ s, dispatchToArrowType (.mk dt nb children) meta out = (.ok s, 0) ∧
      s.arrowType = ArrowType.decimal128 ∧ s.precision = p ∧ s.scale = -dt.scale := by
  rcases out with ⟨t, nm, nb2, tu, p0, s0, ch, d⟩
  rcases dt with ⟨id, sc⟩
  rcases h with ⟨hid, hp⟩ | ⟨hid, hp⟩ | ⟨hid, hp⟩
  · simp only [DataType.id] at hid; subst hid; subst hp
    exact ⟨ArrowSchema.mk .decimal128 nm nb2 tu maxPrecision32 (-sc) ch d,
      by simp [dispatchToArrowType, ArrowSchema.setTypeDecimal], rfl, rfl, rfl⟩
  · simp only [DataType.id] at hid; subst hid; subst hp
    exact ⟨ArrowSchema.mk .decimal128 nm nb2 tu maxPrecision64 (-sc) ch d,
      by simp [dispatchToArrowType, ArrowSchema.setTypeDecimal], rfl, rfl, rfl⟩
  · simp only [DataType.id] at hid; subst hid; subst hp
    exact ⟨ArrowSchema.mk .decimal128 nm nb2 tu maxPrecision128 (-sc) ch d,
      by simp [dispatchToArrowType, ArrowSchema.setTypeDecimal], rfl, rfl, rfl⟩

/-- C7 witness: a decimal64 column of scale 3 maps to decimal128 with
precision 18 and scale -3. -/
theorem c7_witness :
    ∃ s, dispatchToArrowType (.mk ⟨.DECIMAL64, 3⟩ true []) (.mk "d" [])
        (initSchemaNode "d") = (.ok s, 0) ∧
      s.arrowType = ArrowType.decimal128 ∧ s.precision = maxPrecision64 ∧
      s.scale = -(DataType.mk .DECIMAL64 3).scale :=
  c7_decimal_schema ⟨.DECIMAL64, 3⟩ true [] (.mk "d" []) (initSchemaNode "d")
    maxPrecision64 (.inr (.inl ⟨rfl, rfl⟩))

/-- The list schema specialization never renames the node it fills in. -/
theorem dispatchList_preserves_name (children : List ColumnView) (meta : ColumnMetadata)
    (out res : ArrowSchema) (n : Nat)
    (h : dispatchListToArrowType children meta out = (.ok res, n)) : res.name = out.name := by
  rcases out with ⟨t, nm, nb, tu, p, s, ch, d⟩
  cases children with
  | nil => simp [dispatchListToArrowType] at h
  | cons child rest =>
    simp only [dispatchListToArrowType] at h
    by_cases hc : child.dtype.id = TypeId.EMPTY
    · rw [if_pos hc] at h
      simp only [ArrowSchema.setTypeLeaf, ArrowSchema.withChildren, Prod.mk.injEq,
        Except.ok.injEq] at h
      rw [← h.1]
      rfl
    · rw [if_neg hc] at h
      rcases hrec : dispatchToArrowType child (listChildMeta meta) (initSchemaNode "item")
        with ⟨r, m⟩
      rw [hrec] at h
      cases r with
      | error e => simp at h
      | ok built =>
        simp only [ArrowSchema.setTypeLeaf, ArrowSchema.setNullable, ArrowSchema.withChildren,
          Prod.mk.injEq, Except.ok.injEq] at h
        rw [← h.1]
        rfl

/-- The dictionary schema specialization never renames the node it fills in. -/
theorem dispatchDict_preserves_name (children : List ColumnView) (meta : ColumnMetadata)
    (out res : ArrowSchema) (n : Nat)
    (h : dispatchDictToArrowType children meta out = (.ok res, n)) : res.name = out.name := by
  rcases out with ⟨t, nm, nb, tu, p, s, ch, d⟩
  match children with
  | [] => simp [dispatchDictToArrowType] at h
  | [indices] => simp [dispatchDictToArrowType] at h
  | indices :: keys :: rest =>
    simp only [dispatchDictToArrowType] at h
    rcases ht : idToArrowType indices.dtype.id with e | tt <;> rw [ht] at h
    · simp at h
    · rcases hrec : dispatchToArrowType keys (dictKeysMeta meta) (initSchemaNode "")
        with ⟨r, m⟩
      rw [hrec] at h
      cases r with
      | error e => simp at h
      | ok builtKeys =>
        simp only [ArrowSchema.setTypeLeaf, ArrowSchema.withDictionary, Prod.mk.injEq,
          Except.ok.injEq] at h
        rw [← h.1]
        rfl

/-- The schema dispatcher sets types, children and the dictionary of the node
it is given but never renames it (names come only from the caller). -/
theorem dispatch_preserves_name (col : ColumnView) (meta : ColumnMetadata)
    (out res : ArrowSchema) (n : Nat)
    (h : dispatchToArrowType col meta out = (.ok res, n)) : res.name = out.name := by
  rcases col with ⟨⟨id, sc⟩, nb, children⟩
  rcases out with ⟨t, nm, nbf, tu, p, s, ch, d⟩
  cases id <;> simp only [dispatchToArrowType] at h
  case LIST => exact dispatchList_preserves_name _ _ _ _ _ h
  case DICTIONARY32 => exact dispatchDict_preserves_name _ _ _ _ _ h
  case STRUCT =>
    by_cases hlen :
        (ColumnMetadata.children_meta meta).length = children.length
    · rw [if_pos hlen] at h
      rcases hrec : structChildren children meta.children_meta meta.name with ⟨r, m⟩
      rw [hrec] at h
      cases r with
      | error e => simp at h
      | ok kids =>
        simp only [ArrowSchema.setTypeLeaf, ArrowSchema.withChildren, Prod.mk.injEq,
          Except.ok.injEq] at h
        rw [← h.1]
        rfl
    · rw [if_neg hlen] at h
      simp at h
  case EMPTY => simp at h
  all_goals
    first
    | (simp only [ArrowSchema.setTypeLeaf, ArrowSchema.setTypeDateTime,
        ArrowSchema.setTypeDecimal, Prod.mk.injEq, Except.ok.injEq, idToArrowType] at h;
       rw [← h.1];
       rfl)

/-- C8 counterexample: for a cudf-layout list column of int64 elements
(child 0 the int32 offsets column, child 1 the element column) whose caller
metadata names the child entry foo, the produced single child schema node is
built from the OFFSETS column — its type tag is int32, not the element type
int64 — and it is named item (the library default), not foo: neither the
element-column recursion nor the claimed naming holds. -/
theorem c8_counterexample :
    firstChildType (dispatchToArrowType exListCol exListMeta
        ((initSchemaNode "").setName "l")) = some ArrowType.int32 ∧
    ArrowType.int32 ≠ ArrowType.int64 ∧
    firstChildName (dispatchToArrowType exListCol exListMeta
        ((initSchemaNode "").setName "l")) = some "item" ∧
    ("item" : String) ≠ "foo" := by
  refine ⟨?_, by decide, ?_, by decide⟩
  · simp [firstChildType, dispatchToArrowType, dispatchListToArrowType, exListCol, exListMeta,
      listChildMeta, initSchemaNode, ArrowSchema.setName, ArrowSchema.setNullable,
      ArrowSchema.setTypeLeaf, ArrowSchema.withChildren, ArrowSchema.children,
      ArrowSchema.arrowType, ColumnMetadata.children_meta, ColumnView.dtype,
      ColumnView.nullable, idToArrowType]
  · simp [firstChildName, dispatchToArrowType, dispatchListToArrowType, exListCol, exListMeta,
      listChildMeta, initSchemaNode, ArrowSchema.setName, ArrowSchema.setNullable,
      ArrowSchema.setTypeLeaf, ArrowSchema.withChildren, ArrowSchema.children, ArrowSchema.name,
      ColumnMetadata.children_meta, ColumnView.dtype, ColumnView.nullable, idToArrowType]

/-- C8 (amended): for a list column the schema builder produces exactly one
child schema node, but it builds it recursively on the list view FIRST child
— in the cudf list layout that is the int32 offsets column, not the element
column — using the metadata first child entry (or a default entry named
element) as that recursion metadata; and the child node is never renamed
from that metadata: it keeps the library default name item. -/
theorem c8_amended (dt : DataType) (nb : Bool) (firstChild : ColumnView)
    (rest : List ColumnView) (meta : ColumnMetadata) (out res : ArrowSchema) (n : Nat)
    (hid : dt.id = TypeId.LIST) (hne : firstChild.dtype.id ≠ TypeId.EMPTY)
    (h : dispatchToArrowType (.mk dt nb (firstChild :: rest)) meta out = (.ok res, n)) :
    res.arrowType = ArrowType.list ∧
    ∃ cnode m, res.children = [cnode] ∧
      dispatchToArrowType firstChild (listChildMeta meta) (initSchemaNode "item") =
        (.ok cnode, m) ∧
      cnode.name = "item" := by
  rcases dt with ⟨id, sc⟩
  simp only [DataType.id] at hid
  subst hid
  simp only [dispatchToArrowType] at h
  simp only [dispatchListToArrowType] at h
  rw [if_neg hne] at h
  rcases hrec : dispatchToArrowType firstChild (listChildMeta meta) (initSchemaNode "item")
    with ⟨r, m⟩
  rw [hrec] at h
  cases r with
  | error e => simp at h
  | ok built =>
    rcases out with ⟨t, nm, nbf, tu, p, s, ch, d⟩
    simp only [ArrowSchema.setTypeLeaf, ArrowSchema.setNullable, ArrowSchema.withChildren,
      Prod.mk.injEq, Except.ok.injEq] at h
    rw [← h.1]
    refine ⟨rfl, built, m, rfl, rfl, ?_⟩
    have := dispatch_preserves_name _ _ _ _ _ hrec
    simpa [initSchemaNode, ArrowSchema.name] using this

/-- C8 witness: the amended statement at the concrete cudf-layout list of
int64 elements, whose first child is the int32 offsets column. -/
theorem c8_witness :
    ∃ res n,
      dispatchToArrowType
        (.mk ⟨.LIST, 0⟩ true [.mk ⟨.INT32, 0⟩ false [], .mk ⟨.INT64, 0⟩ true []]) exListMeta
        ((initSchemaNode "").setName "l") = (.ok res, n) ∧
      res.arrowType = ArrowType.list ∧
      ∃ cnode m, res.children = [cnode] ∧
        dispatchToArrowType (.mk ⟨.INT32, 0⟩ false []) (listChildMeta exListMeta)
          (initSchemaNode "item") = (.ok cnode, m) ∧
        cnode.name = "item" := by
  refine ⟨(ArrowSchema.mk .list "l" false Option.none 0 0
      [ArrowSchema.mk .int32 "item" true Option.none 0 0 [] []] []), 1, ?hconv, ?_⟩
  case hconv =>
    simp [dispatchToArrowType, dispatchListToArrowType, exListMeta, listChildMeta,
      initSchemaNode, ArrowSchema.setName, ArrowSchema.setNullable, ArrowSchema.setTypeLeaf,
      ArrowSchema.withChildren, ColumnMetadata.children_meta, ColumnView.dtype,
      ColumnView.nullable, idToArrowType]
  exact c8_amended ⟨.LIST, 0⟩ true (.mk ⟨.INT32, 0⟩ false [])
    [.mk ⟨.INT64, 0⟩ true []] exListMeta
    ((initSchemaNode "").setName "l") _ 1 rfl (by decide) (by
      simp [dispatchToArrowType, dispatchListToArrowType, exListMeta, listChildMeta,
        initSchemaNode, ArrowSchema.setName, ArrowSchema.setNullable, ArrowSchema.setTypeLeaf,
        ArrowSchema.withChildren, ColumnMetadata.children_meta, ColumnView.dtype,
        ColumnView.nullable, idToArrowType])

/-- In the struct child loop, an EMPTY child column always yields a null-type
leaf (no children, no dictionary slot), whatever child views it declares. -/
theorem structChildren_empty_leaf (cols : List ColumnView) :
    ∀ (metas : List ColumnMetadata) (pn : String) (res : List ArrowSchema) (n : Nat),
      structChildren cols metas pn = (.ok res, n) →
      ∀ i (hi : i < cols.length), (cols.get ⟨i, hi⟩).dtype.id = TypeId.EMPTY →
        ∃ node, res.get? i = some node ∧ node.arrowType = ArrowType.na ∧
          node.children = [] ∧ node.dictionary = [] := by
  induction cols with
  | nil =>
    intro metas pn res n h i hi
    exact absurd hi (by simp)
  | cons c cs ih =>
    intro metas pn res n h i hi hempty
    cases metas with
    | nil => simp [structChildren] at h
    | cons m ms =>
      simp only [structChildren] at h
      by_cases hc : c.dtype.id = TypeId.EMPTY
      · rw [if_pos hc] at h
        rcases hrec : structChildren cs ms pn with ⟨r, n2⟩
        rw [hrec] at h
        cases r with
        | error e => simp at h
        | ok restr =>
          simp only [Prod.mk.injEq, Except.ok.injEq] at h
          rw [← h.1]
          cases i with
          | zero =>
            refine ⟨_, rfl, ?_, ?_, ?_⟩ <;>
              simp [initSchemaNode, ArrowSchema.setName, ArrowSchema.setNullable,
                ArrowSchema.setTypeLeaf, ArrowSchema.arrowType, ArrowSchema.children,
                ArrowSchema.dictionary]
          | succ j =>
            have hj : j < cs.length := by simpa using hi
            have hem : (cs.get ⟨j, hj⟩).dtype.id = TypeId.EMPTY := by simpa using hempty
            simpa using ih ms pn restr n2 hrec j hj hem
      · rw [if_neg hc] at h
        rcases hd : dispatchToArrowType c m (((initSchemaNode "").setName pn).setNullable
            c.nullable) with ⟨r1, k⟩
        rw [hd] at h
        cases r1 with
        | error e => simp at h
        | ok built =>
          rcases hrec : structChildren cs ms pn with ⟨r, n2⟩
          rw [hrec] at h
          cases r with
          | error e => simp at h
          | ok restr =>
            simp only [Prod.mk.injEq, Except.ok.injEq] at h
            rw [← h.1]
            cases i with
            | zero => exact absurd (by simpa using hempty) hc
            | succ j =>
              have hj : j < cs.length := by simpa using hi
              have hem : (cs.get ⟨j, hj⟩).dtype.id = TypeId.EMPTY := by simpa using hempty
              simpa using ih ms pn restr n2 hrec j hj hem

/-- In the to_arrow_schema per-column loop, an EMPTY column always yields a
null-type leaf (no children, no dictionary slot). -/
theorem topChildren_empty_leaf (cols : List ColumnView) :
    ∀ (metas : List ColumnMetadata) (res : List ArrowSchema) (n : Nat),
      topChildren cols metas = (.ok res, n) →
      ∀ i (hi : i < cols.length), (cols.get ⟨i, hi⟩).dtype.id = TypeId.EMPTY →
        ∃ node, res.get? i = some node ∧ node.arrowType = ArrowType.na ∧
          node.children = [] ∧ node.dictionary = [] := by
  induction cols with
  | nil =>
    intro metas res n h i hi
    exact absurd hi (by simp)
  | cons c cs ih =>
    intro metas res n h i hi hempty
    cases metas with
    | nil => simp [topChildren] at h
    | cons m ms =>
      simp only [topChildren] at h
      by_cases hc : c.dtype.id = TypeId.EMPTY
      · rw [if_pos hc] at h
        rcases hrec : topChildren cs ms with ⟨r, n2⟩
        rw [hrec] at h
        cases r with
        | error e => simp at h
        | ok restr =>
          simp only [Prod.mk.injEq, Except.ok.injEq] at h
          rw [← h.1]
          cases i with
          | zero =>
            refine ⟨_, rfl, ?_, ?_, ?_⟩ <;>
              simp [initSchemaNode, ArrowSchema.setName, ArrowSchema.setNullable,
                ArrowSchema.setTypeLeaf, ArrowSchema.arrowType, ArrowSchema.children,
                ArrowSchema.dictionary]
          | succ j =>
            have hj : j < cs.length := by simpa using hi
            have hem : (cs.get ⟨j, hj⟩).dtype.id = TypeId.EMPTY := by simpa using hempty
            simpa using ih ms restr n2 hrec j hj hem
      · rw [if_neg hc] at h
        rcases hd : dispatchToArrowType c m (((initSchemaNode "").setName m.name).setNullable
            c.nullable) with ⟨r1, k⟩
        rw [hd] at h
        cases r1 with
        | error e => simp at h
        | ok built =>
          rcases hrec : topChildren cs ms with ⟨r, n2⟩
          rw [hrec] at h
          cases r with
          | error e => simp at h
          | ok restr =>
            simp only [Prod.mk.injEq, Except.ok.injEq] at h
            rw [← h.1]
            cases i with
            | zero => exact absurd (by simpa using hempty) hc
            | succ j =>
              have hj : j < cs.length := by simpa using hi
              have hem : (cs.get ⟨j, hj⟩).dtype.id = TypeId.EMPTY := by simpa using hempty
              simpa using ih ms restr n2 hrec j hj hem

/-- C9 (confirmed): a column (or struct child) of type id EMPTY is mapped by
schema construction to a null-type leaf node — no children, no dictionary, so
no further recursion — regardless of any child views it declares. -/
theorem c9_empty_null_leaf :
    (∀ (cols : List ColumnView) (metas : List ColumnMetadata) (s : ArrowSchema) (n : Nat),
        toArrowSchema cols metas = (.ok s, n) →
        ∀ i (hi : i < cols.length), (cols.get ⟨i, hi⟩).dtype.id = TypeId.EMPTY →
          ∃ node, s.children.get? i = some node ∧ node.arrowType = ArrowType.na ∧
            node.children = [] ∧ node.dictionary = []) ∧
    (∀ (dt : DataType) (nb : Bool) (children : List ColumnView) (meta : ColumnMetadata)
        (out res : ArrowSchema) (n : Nat),
        dt.id = TypeId.STRUCT →
        dispatchToArrowType (.mk dt nb children) meta out = (.ok res, n) →
        ∀ i (hi : i < children.length), (children.get ⟨i, hi⟩).dtype.id = TypeId.EMPTY →
          ∃ node, res.children.get? i = some node ∧ node.arrowType = ArrowType.na ∧
            node.children = [] ∧ node.dictionary = []) := by
  constructor
  · intro cols metas s n h i hi hempty
    simp only [toArrowSchema] at h
    by_cases hlen : metas.length = cols.length
    · rw [if_pos hlen] at h
      rcases hrec : topChildren cols metas with ⟨r, n2⟩
      rw [hrec] at h
      cases r with
      | error e => simp at h
      | ok kids =>
        simp only [Prod.mk.injEq, Except.ok.injEq] at h
        rw [← h.1]
        have := topChildren_empty_leaf cols metas kids n2 hrec i hi hempty
        simpa [initSchemaNode, ArrowSchema.setTypeLeaf, ArrowSchema.withChildren,
          ArrowSchema.children] using this
    · rw [if_neg hlen] at h
      simp at h
  · intro dt nb children meta out res n hid h i hi hempty
    rcases dt with ⟨id, sc⟩
    simp only [DataType.id] at hid
    subst hid
    simp only [dispatchToArrowType] at h
    by_cases hlen : meta.children_meta.length = children.length
    · rw [if_pos hlen] at h
      rcases hrec : structChildren children meta.children_meta meta.name with ⟨r, n2⟩
      rw [hrec] at h
      cases r with
      | error e => simp at h
      | ok kids =>
        simp only [Prod.mk.injEq, Except.ok.injEq] at h
        rw [← h.1]
        have := structChildren_empty_leaf children meta.children_meta meta.name kids n2 hrec
          i hi hempty
        rcases out with ⟨t, nm, nbf, tu, p, s, ch, d⟩
        simpa [ArrowSchema.setTypeLeaf, ArrowSchema.withChildren, ArrowSchema.children]
          using this
    · rw [if_neg hlen] at h
      simp at h

/-- C9 witness: both parts at concrete inputs, with an EMPTY column that even
declares a child view. -/
theorem c9_witness :
    (∃ node,
        (ArrowSchema.mk .struct "" true Option.none 0 0
            [ArrowSchema.mk .na "e" false Option.none 0 0 [] []] []).children.get? 0 =
          some node ∧
        node.arrowType = ArrowType.na ∧ node.children = [] ∧ node.dictionary = []) ∧
    (∃ node,
        (ArrowSchema.mk .struct "s" true Option.none 0 0
            [ArrowSchema.mk .na "s" false Option.none 0 0 [] []] []).children.get? 0 =
          some node ∧
        node.arrowType = ArrowType.na ∧ node.children = [] ∧ node.dictionary = []) := by
  constructor
  · exact c9_empty_null_leaf.1
      [ColumnView.mk ⟨.EMPTY, 0⟩ false [ColumnView.mk ⟨.INT32, 0⟩ false []]]
      [ColumnMetadata.mk "e" []]
      (ArrowSchema.mk .struct "" true Option.none 0 0
        [ArrowSchema.mk .na "e" false Option.none 0 0 [] []] []) 1
      (by simp [toArrowSchema, topChildren, initSchemaNode, ArrowSchema.setName,
        ArrowSchema.setNullable, ArrowSchema.setTypeLeaf, ArrowSchema.withChildren,
        ColumnView.dtype, ColumnView.nullable, ColumnMetadata.name])
      0 (by decide) (by decide)
  · exact c9_empty_null_leaf.2 ⟨.STRUCT, 0⟩ false [ColumnView.mk ⟨.EMPTY, 0⟩ false []]
      (ColumnMetadata.mk "s" [ColumnMetadata.mk "a" []]) (initSchemaNode "s")
      (ArrowSchema.mk .struct "s" true Option.none 0 0
        [ArrowSchema.mk .na "s" false Option.none 0 0 [] []] []) 1
      rfl
      (by simp [dispatchToArrowType, structChildren, initSchemaNode, ArrowSchema.setName,
        ArrowSchema.setNullable, ArrowSchema.setTypeLeaf, ArrowSchema.withChildren,
        ColumnView.dtype, ColumnView.nullable, ColumnMetadata.name,
        ColumnMetadata.children_meta])
      0 (by decide) (by decide)

/-- C5 counterexample: BOOL8 is representation-layout-compatible by the cudf
trait, yet its array conversion does not re-own the original data buffer: the
data slot points at the freshly packed bitmask buffer, not at the column data
buffer. -/
theorem c5_counterexample :
    isRepLayoutCompatible exBoolColumn.dtype.id = true ∧
    slot1DataPtr (dispatchToArrowDevice exBoolColumn 100) = some (some 100) ∧
    exBoolColumn.data.ptr = 5 ∧
    slot1DataPtr (dispatchToArrowDevice exBoolColumn 100) ≠
      some (some exBoolColumn.data.ptr) := by
  refine ⟨rfl, rfl, rfl, ?_⟩
  decide

/-- C5 (amended): for every representation-layout-compatible primitive column
other than boolean (which takes the bit-packing specialization), conversion
re-owns the buffers zero copy: the data slot (buffer 1) holds the original
data pointer with a deallocator owning the original buffer and freeing
exactly it on release, and the null mask, when present, likewise occupies
slot 0 (validity first, data second). -/
theorem c5_amended (c : Column) (fresh : Nat)
    (hc : isRepLayoutCompatible c.dtype.id = true) (hb : c.dtype.id ≠ TypeId.BOOL8) :
    ∃ arr, dispatchToArrowDevice c fresh = .ok arr ∧
      arr.buffers.get? 1 = some ⟨some c.data.ptr, .devBuffer c.data⟩ ∧
      freeOnRelease (AllocPayload.devBuffer c.data) = [c.data] ∧
      (c.null_mask = Option.none → arr.buffers.get? 0 = some emptyArrowBuffer) ∧
      (∀ nm, c.null_mask = some nm →
        arr.buffers.get? 0 = some ⟨some nm.ptr, .devBuffer nm⟩ ∧
        freeOnRelease (AllocPayload.devBuffer nm) = [nm]) := by
  rcases c with ⟨⟨id, sc⟩, size, ncount, data, mask⟩
  dsimp only at hc hb ⊢
  rcases mask with _ | nm <;> cases id <;>
    first
    | exact absurd rfl hb
    | exact absurd hc Bool.noConfusion
    | exact ⟨_, rfl, rfl, rfl, fun h => rfl, fun nm2 h => (nomatch h)⟩
    | exact ⟨_, rfl, rfl, rfl, fun h => (nomatch h),
        fun nm2 h => by cases h; exact ⟨rfl, rfl⟩⟩

/-- C5 witness: the amended statement at a concrete int32 column. -/
theorem c5_witness :
    ∃ arr, dispatchToArrowDevice exIntColumn 100 = .ok arr ∧
      arr.buffers.get? 1 = some ⟨some exIntColumn.data.ptr, .devBuffer exIntColumn.data⟩ ∧
      freeOnRelease (AllocPayload.devBuffer exIntColumn.data) = [exIntColumn.data] ∧
      (exIntColumn.null_mask = Option.none → arr.buffers.get? 0 = some emptyArrowBuffer) ∧
      (∀ nm, exIntColumn.null_mask = some nm →
        arr.buffers.get? 0 = some ⟨some nm.ptr, .devBuffer nm⟩ ∧
        freeOnRelease (AllocPayload.devBuffer nm) = [nm]) :=
  c5_amended exIntColumn 100 (by decide) (by decide)

/-- Indexing a replicated list inside its bounds gives the replicated value. -/
theorem replicate_getElem (n : Nat) (a : Int) (j : Nat) (h : j < n) :
    (List.replicate n a)[j]? = some a := by
  induction n generalizing j with
  | zero => omega
  | succ m ih =>
    rw [List.replicate_succ]
    cases j with
    | zero => simp
    | succ jj =>
      rw [List.getElem?_cons_succ]
      exact ih jj (by omega)

/-- One widened element occupies exactly wordsPerValue words. -/
theorem widenValue_length (w : Nat) (hw : 1 ≤ w) (v : Int) : (widenValue w v).length = w := by
  simp [widenValue]
  omega

/-- The widened buffer of a cons decomposes into the first chunk then the
rest. -/
theorem widenWords_cons (w : Nat) (v : Int) (vs : List Int) :
    widenWords w (v :: vs) = widenValue w v ++ widenWords w vs := by
  simp [widenWords]

/-- The widened buffer holds wordsPerValue words per input element. -/
theorem widenWords_length (w : Nat) (hw : 1 ≤ w) (vals : List Int) :
    (widenWords w vals).length = vals.length * w := by
  induction vals with
  | nil => simp [widenWords]
  | cons v vs ih =>
    rw [widenWords_cons, List.length_append, widenValue_length w hw, ih, List.length_cons]
    ring

/-- Word j of slot i of the widened buffer: the value itself at j = 0, the
sign fill at every higher j. -/
theorem widenWords_getElem (w : Nat) (hw : 1 ≤ w) (vals : List Int) (i j : Nat)
    (hi : i < vals.length) (hj : j < w) :
    (widenWords w vals)[i * w + j]? =
      some (if j = 0 then vals.getD i 0 else if vals.getD i 0 < 0 then -1 else 0) := by
  induction vals generalizing i with
  | nil => simp at hi
  | cons v vs ih =>
    cases i with
    | zero =>
      rw [widenWords_cons]
      have hlt : 0 * w + j < (widenValue w v).length := by
        rw [widenValue_length w hw]
        omega
      rw [List.getElem?_append, if_pos hlt]
      simp only [Nat.zero_mul, Nat.zero_add]
      cases j with
      | zero => simp [widenValue, List.getD]
      | succ jj =>
        have hjj : jj < w - 1 := by omega
        simp only [widenValue, List.getElem?_cons_succ]
        rw [replicate_getElem _ _ _ hjj]
        simp [List.getD]
    | succ i2 =>
      rw [widenWords_cons]
      have hlen : (widenValue w v).length = w := widenValue_length w hw v
      have hmul : (i2 + 1) * w = i2 * w + w := by ring
      have hnlt : ¬ ((i2 + 1) * w + j < (widenValue w v).length) := by
        rw [hlen]
        omega
      rw [List.getElem?_append, if_neg hnlt, hlen]
      have harith : (i2 + 1) * w + j - w = i2 * w + j := by omega
      rw [harith]
      have hi2 : i2 < vs.length := by simpa using hi
      rw [ih i2 hi2]
      simp [List.getD_cons_succ]

/-- C2 (confirmed): for every decimal32 (4 narrow words per slot) or
decimal64 (2 narrow words per slot) column, the array builder produces a new
128-bit buffer in the data slot whose element i has its low-order word equal
to the element value and every higher-order word equal to 0 when the value is
nonnegative and -1 (all bits set) when it is negative. -/
theorem c2_decimal_widening (c : Column) (fresh : Nat) (w : Nat)
    (hw : (c.dtype.id = TypeId.DECIMAL32 ∧ w = 4) ∨ (c.dtype.id = TypeId.DECIMAL64 ∧ w = 2))
    (hlen : c.data.words.length = c.size) :
    ∃ arr, dispatchToArrowDevice c fresh = .ok arr ∧
      arr.buffers.get? 1 =
        some ⟨some fresh, .devBuffer ⟨fresh, widenWords w c.data.words⟩⟩ ∧
      (widenWords w c.data.words).length = c.size * w ∧
      ∀ i, i < c.size →
        (widenWords w c.data.words)[i * w]? = some (c.data.words.getD i 0) ∧
        ∀ j, 1 ≤ j → j < w →
          (widenWords w c.data.words)[i * w + j]? =
            some (if c.data.words.getD i 0 < 0 then -1 else 0) := by
  obtain ⟨⟨id, sc⟩, size, ncount, data, mask⟩ := c
  dsimp only at hw hlen ⊢
  have htake : data.words.take size = data.words := by
    rw [← hlen]
    exact List.take_length data.words
  rcases hw with ⟨hid, hwv⟩ | ⟨hid, hwv⟩ <;> subst hid <;> subst hwv <;>
    rcases mask with _ | nm <;>
    · refine ⟨_, rfl, ?_, ?_, ?_⟩
      · rw [htake]
        rfl
      · rw [widenWords_length _ (by omega), hlen]
      · intro i hi
        have hi2 : i < data.words.length := by omega
        refine ⟨by simpa using widenWords_getElem _ (by omega) data.words i 0 hi2 (by omega),
          ?_⟩
        intro j hj1 hjw
        have hne : ¬ (j = 0) := by omega
        simpa [hne] using widenWords_getElem _ (by omega) data.words i j hi2 hjw

/-- C2 witness: the widening facts at a concrete decimal32 column holding 7
and -8. -/
theorem c2_witness :
    ∃ arr, dispatchToArrowDevice exDecimalColumn 100 = .ok arr ∧
      arr.buffers.get? 1 =
        some ⟨some 100, .devBuffer ⟨100, widenWords 4 exDecimalColumn.data.words⟩⟩ ∧
      (widenWords 4 exDecimalColumn.data.words).length = exDecimalColumn.size * 4 ∧
      ∀ i, i < exDecimalColumn.size →
        (widenWords 4 exDecimalColumn.data.words)[i * 4]? =
          some (exDecimalColumn.data.words.getD i 0) ∧
        ∀ j, 1 ≤ j → j < 4 →
          (widenWords 4 exDecimalColumn.data.words)[i * 4 + j]? =
            some (if exDecimalColumn.data.words.getD i 0 < 0 then -1 else 0) :=
  c2_decimal_widening exDecimalColumn 100 4 (.inl ⟨rfl, rfl⟩) (by decide)

/-- Every successful array dispatch copies the column size and null count
into the produced array node. -/
theorem dispatch_length_null_count (c : Column) (fresh : Nat) (arr : ArrowArray)
    (h : dispatchToArrowDevice c fresh = .ok arr) :
    arr.length = c.size ∧ arr.null_count = c.null_count := by
  obtain ⟨⟨id, sc⟩, size, ncount, data, mask⟩ := c
  dsimp only at h ⊢
  rcases mask with _ | nm <;> cases id <;>
    first
    | exact Except.noConfusion h
    | (injection h with h2
       rw [← h2]
       exact ⟨rfl, rfl⟩)

/-- Unsupported column types make the array dispatch throw the
unsupported-type error. -/
theorem dispatch_unsupported_err (c : Column) (fresh : Nat)
    (h : deviceUnsupported c.dtype.id = true) :
    dispatchToArrowDevice c fresh = .error unsupportedDeviceMsg := by
  obtain ⟨⟨id, sc⟩, size, ncount, data, mask⟩ := c
  dsimp only at h ⊢
  cases id <;> first | rfl | exact absurd h Bool.noConfusion

/-- Supported non-EMPTY column types always convert successfully. -/
theorem dispatch_ok_of_supported (c : Column) (fresh : Nat)
    (hu : deviceUnsupported c.dtype.id = false) (he : c.dtype.id ≠ TypeId.EMPTY) :
    ∃ arr, dispatchToArrowDevice c fresh = .ok arr := by
  obtain ⟨⟨id, sc⟩, size, ncount, data, mask⟩ := c
  dsimp only at hu he ⊢
  rcases mask with _ | nm <;> cases id <;>
    first
    | exact absurd rfl he
    | exact absurd hu Bool.noConfusion
    | exact ⟨_, rfl⟩

/-- On the zero-copy paths the produced node captures ownership of the
original data buffer. -/
theorem dispatch_zero_copy_mem (c : Column) (fresh : Nat) (arr : ArrowArray)
    (hz : zeroCopyPath c.dtype.id = true)
    (h : dispatchToArrowDevice c fresh = .ok arr) :
    c.data ∈ capturedBuffers arr := by
  obtain ⟨⟨id, sc⟩, size, ncount, data, mask⟩ := c
  dsimp only at hz h ⊢
  rcases mask with _ | nm <;> cases id <;>
    first
    | exact absurd hz Bool.noConfusion
    | (injection h with h2
       rw [← h2]
       simp [capturedBuffers, setBufferSlot, arrowArrayInitFromType, initBuffers,
         emptyArrowBuffer, genericToArrowDevice])

/-- Specification of a fully successful conversion loop: one child per
column, and every EMPTY column yields a null-typed child whose length and
null count both equal the column size. -/
theorem convertCols_ok_spec (cols : List Column) :
    ∀ (fresh : Nat) (built : List ArrowArray),
      convertCols cols fresh = (built, Option.none) →
      built.length = cols.length ∧
      ∀ i (hi : i < cols.length), (cols.get ⟨i, hi⟩).dtype.id = TypeId.EMPTY →
        built.get? i =
          some ⟨.na, (cols.get ⟨i, hi⟩).size, (cols.get ⟨i, hi⟩).size, initBuffers⟩ := by
  induction cols with
  | nil =>
    intro fresh built h
    simp only [convertCols, Prod.mk.injEq] at h
    rw [← h.1]
    exact ⟨rfl, fun i hi => absurd hi (by simp)⟩
  | cons c cs ih =>
    intro fresh built h
    simp only [convertCols] at h
    by_cases hcE : c.dtype.id = TypeId.EMPTY
    · rw [if_pos hcE] at h
      rcases hrec : convertCols cs (fresh + 1) with ⟨bs, e⟩
      simp only [hrec, Prod.mk.injEq] at h
      obtain ⟨h1, h2⟩ := h
      subst h2
      rw [← h1]
      obtain ⟨ihlen, ihspec⟩ := ih (fresh + 1) bs hrec
      constructor
      · simp [ihlen]
      · intro i hi hempty
        cases i with
        | zero => simp [hcE]
        | succ j =>
          have hj : j < cs.length := by simpa using hi
          exact ihspec j hj hempty
    · rw [if_neg hcE] at h
      cases hd : dispatchToArrowDevice c fresh with
      | error m =>
        rw [hd] at h
        simp at h
      | ok arr =>
        rw [hd] at h
        rcases hrec : convertCols cs (fresh + 1) with ⟨bs, e⟩
        simp only [hrec, Prod.mk.injEq] at h
        obtain ⟨h1, h2⟩ := h
        subst h2
        rw [← h1]
        obtain ⟨ihlen, ihspec⟩ := ih (fresh + 1) bs hrec
        constructor
        · simp [ihlen]
        · intro i hi hempty
          cases i with
          | zero => exact absurd hempty hcE
          | succ j =>
            have hj : j < cs.length := by simpa using hi
            exact ihspec j hj hempty

/-- When the first unsupported column sits at position k and everything
before it is supported, the conversion loop stops with the unsupported-type
error, and the data buffer of every zero-copy column before k has already
been captured by a built child. -/
theorem convertCols_stops (cols : List Column) :
    ∀ (fresh k : Nat) (hk : k < cols.length),
      deviceUnsupported ((cols.get ⟨k, hk⟩).dtype.id) = true →
      (∀ j (hj : j < k), deviceUnsupported ((cols.get ⟨j, hj.trans hk⟩).dtype.id) = false) →
      (convertCols cols fresh).2 = some unsupportedDeviceMsg ∧
      ∀ j (hj : j < k), zeroCopyPath ((cols.get ⟨j, hj.trans hk⟩).dtype.id) = true →
        (cols.get ⟨j, hj.trans hk⟩).data ∈
          (convertCols cols fresh).1.flatMap capturedBuffers := by
  induction cols with
  | nil =>
    intro fresh k hk
    exact absurd hk (by simp)
  | cons c cs ih =>
    intro fresh k hk hu hpre
    cases k with
    | zero =>
      have hcE : c.dtype.id ≠ TypeId.EMPTY := by
        intro hE
        rw [show (c :: cs).get ⟨0, hk⟩ = c from rfl] at hu
        rw [hE] at hu
        exact absurd hu (by decide)
      have herr := dispatch_unsupported_err c fresh (by exact hu)
      constructor
      · simp only [convertCols]
        rw [if_neg hcE, herr]
      · intro j hj
        exact absurd hj (by omega)
    | succ k2 =>
      have hc0 : deviceUnsupported c.dtype.id = false := hpre 0 (by omega)
      have hk2 : k2 < cs.length := by simpa using hk
      have hu2 : deviceUnsupported ((cs.get ⟨k2, hk2⟩).dtype.id) = true := hu
      have hpre2 : ∀ j (hj : j < k2),
          deviceUnsupported ((cs.get ⟨j, hj.trans hk2⟩).dtype.id) = false := by
        intro j hj
        exact hpre (j + 1) (by omega)
      obtain ⟨h2, hmem⟩ := ih (fresh + 1) k2 hk2 hu2 hpre2
      by_cases hcE : c.dtype.id = TypeId.EMPTY
      · constructor
        · simp only [convertCols]
          rw [if_pos hcE]
          exact h2
        · intro j hj hz
          cases j with
          | zero =>
            rw [show (c :: cs).get ⟨0, _⟩ = c from rfl, hcE] at hz
            exact absurd hz (by decide)
          | succ j2 =>
            have := hmem j2 (by omega) hz
            simp only [convertCols]
            rw [if_pos hcE]
            simp only [List.flatMap_cons]
            exact List.mem_append_right _ this
      · obtain ⟨arr, harr⟩ := dispatch_ok_of_supported c fresh hc0 hcE
        constructor
        · simp only [convertCols]
          rw [if_neg hcE, harr]
          exact h2
        · intro j hj hz
          cases j with
          | zero =>
            have hmem0 := dispatch_zero_copy_mem c fresh arr hz harr
            simp only [convertCols]
            rw [if_neg hcE, harr]
            simp only [List.flatMap_cons]
            exact List.mem_append_left _ hmem0
          | succ j2 =>
            have := hmem j2 (by omega) hz
            simp only [convertCols]
            rw [if_neg hcE, harr]
            simp only [List.flatMap_cons]
            exact List.mem_append_right _ this

/-- C10 (confirmed): every produced array node carries its source column size
as length and the source null count as null count (all conversion paths go
through the dispatcher); the top-level struct node carries the table row
count with null count 0; and every EMPTY column yields a null-typed child
whose null count equals its length. -/
theorem c10_lengths_null_counts :
    (∀ (c : Column) (fresh : Nat) (arr : ArrowArray),
        dispatchToArrowDevice c fresh = .ok arr →
        arr.length = c.size ∧ arr.null_count = c.null_count) ∧
    (∀ (t : Table) (dev : Int) (ev fresh : Nat) (stream : List Nat)
        (res : ArrowDeviceArrayRes) (stream2 : List Nat),
        toArrowDevice t dev ev fresh stream = (.ok res, stream2) →
        res.array.length = t.num_rows ∧ res.array.null_count = 0 ∧
        res.array.children.length = t.columns.length ∧
        ∀ i (hi : i < t.columns.length), (t.columns.get ⟨i, hi⟩).dtype.id = TypeId.EMPTY →
          res.array.children.get? i =
            some ⟨.na, (t.columns.get ⟨i, hi⟩).size, (t.columns.get ⟨i, hi⟩).size,
              initBuffers⟩) := by
  constructor
  · exact dispatch_length_null_count
  · intro t dev ev fresh stream res stream2 h
    simp only [toArrowDevice] at h
    rcases hconv : convertCols t.columns fresh with ⟨built, e⟩
    rw [hconv] at h
    cases e with
    | some m => simp at h
    | none =>
      simp only [Prod.mk.injEq, ConvResult.ok.injEq] at h
      obtain ⟨h1, h2⟩ := h
      rw [← h1]
      obtain ⟨hlen, hspec⟩ := convertCols_ok_spec t.columns fresh built hconv
      exact ⟨rfl, rfl, hlen, fun i hi he => hspec i hi he⟩

/-- C10 witness: both parts at concrete inputs (an int32 column, and a table
holding an int32 column and an EMPTY column). -/
theorem c10_witness :
    (exIntArray.length = exIntColumn.size ∧
      exIntArray.null_count = exIntColumn.null_count) ∧
    (exOkRes.array.length = exOkTable.num_rows ∧ exOkRes.array.null_count = 0 ∧
      exOkRes.array.children.length = exOkTable.columns.length ∧
      ∀ i (hi : i < exOkTable.columns.length),
        (exOkTable.columns.get ⟨i, hi⟩).dtype.id = TypeId.EMPTY →
        exOkRes.array.children.get? i =
          some ⟨.na, (exOkTable.columns.get ⟨i, hi⟩).size,
            (exOkTable.columns.get ⟨i, hi⟩).size, initBuffers⟩) :=
  ⟨c10_lengths_null_counts.1 exIntColumn 100 exIntArray rfl,
   c10_lengths_null_counts.2 exOkTable 0 50 100 [] exOkRes [50] rfl⟩

/-- C6 (confirmed): a successful to_arrow_device records exactly one event on
the producer stream, stores its handle as the sync event of the returned
wrapper and in buffer slot 0 of the top-level node whose release callback
destroys exactly that event, and records the current device id and the cuda
device kind in the wrapper. -/
theorem c6_sync_event (t : Table) (dev : Int) (ev fresh : Nat) (stream : List Nat)
    (res : ArrowDeviceArrayRes) (stream2 : List Nat)
    (h : toArrowDevice t dev ev fresh stream = (.ok res, stream2)) :
    stream2 = stream ++ [ev] ∧
    res.sync_event = ev ∧
    res.array.buffers.get? 0 = some ⟨Option.none, .cudaEvent ev⟩ ∧
    destroyOnRelease (AllocPayload.cudaEvent ev) = [ev] ∧
    res.device_id = dev ∧ res.device_type = ArrowDeviceKind.cuda := by
  simp only [toArrowDevice] at h
  rcases hconv : convertCols t.columns fresh with ⟨built, e⟩
  rw [hconv] at h
  cases e with
  | some m => simp at h
  | none =>
    simp only [Prod.mk.injEq, ConvResult.ok.injEq] at h
    obtain ⟨h1, h2⟩ := h
    rw [← h1, ← h2]
    exact ⟨rfl, rfl, rfl, rfl, rfl, rfl⟩

/-- C6 witness: the sync-event contract at a concrete table. -/
theorem c6_witness :
    ([50] : List Nat) = [] ++ [50] ∧
    exOkRes.sync_event = 50 ∧
    exOkRes.array.buffers.get? 0 = some ⟨Option.none, .cudaEvent 50⟩ ∧
    destroyOnRelease (AllocPayload.cudaEvent 50) = [50] ∧
    exOkRes.device_id = 0 ∧ exOkRes.device_type = ArrowDeviceKind.cuda :=
  c6_sync_event exOkTable 0 50 100 [] exOkRes [50] rfl

/-- C1 counterexample: converting a table whose columns are an int32 column
followed by a string column fails with the unsupported-type error, yet the
int32 column data buffer has already been transferred (captured by a built
child): the transfer is not all-or-nothing and the failed call does not leave
every column owning its buffers. -/
theorem c1_counterexample :
    (toArrowDevice exTable 0 50 100 []).1 =
      .failed unsupportedDeviceMsg [⟨5, [7, 8]⟩] ∧
    ([(⟨5, [7, 8]⟩ : DeviceBuffer)] : List DeviceBuffer) ≠ [] := by
  constructor
  · rfl
  · decide

/-- C1 (amended): calling to_arrow_device on a table whose first unsupported
column (string, list, dictionary or struct) sits at position k, all earlier
columns being supported, fails with the unsupported-type error; but the
table was released up front and the buffers of the preceding columns have
already been transferred: in particular the data buffer of every preceding
zero-copy column is among the transferred buffers. -/
theorem c1_amended (t : Table) (dev : Int) (ev fresh : Nat) (stream : List Nat) (k : Nat)
    (hk : k < t.columns.length)
    (hu : deviceUnsupported ((t.columns.get ⟨k, hk⟩).dtype.id) = true)
    (hpre : ∀ j (hj : j < k),
      deviceUnsupported ((t.columns.get ⟨j, hj.trans hk⟩).dtype.id) = false) :
    ∃ tr, (toArrowDevice t dev ev fresh stream).1 = .failed unsupportedDeviceMsg tr ∧
      ∀ j (hj : j < k), zeroCopyPath ((t.columns.get ⟨j, hj.trans hk⟩).dtype.id) = true →
        (t.columns.get ⟨j, hj.trans hk⟩).data ∈ tr := by
  obtain ⟨hstop, hmem⟩ := convertCols_stops t.columns fresh k hk hu hpre
  refine ⟨(convertCols t.columns fresh).1.flatMap capturedBuffers, ?_, hmem⟩
  simp only [toArrowDevice]
  rcases hconv : convertCols t.columns fresh with ⟨built, e⟩
  rw [hconv] at hstop
  have he : e = some unsupportedDeviceMsg := hstop
  subst he
  rfl

/-- C1 witness: the amended statement at the concrete int32-then-string
table. -/
theorem c1_witness :
    ∃ tr, (toArrowDevice exTable 0 50 100 []).1 = .failed unsupportedDeviceMsg tr ∧
      ∀ j (hj : j < 1),
        zeroCopyPath ((exTable.columns.get ⟨j, hj.trans (by decide)⟩).dtype.id) = true →
        (exTable.columns.get ⟨j, hj.trans (by decide)⟩).data ∈ tr :=
  c1_amended exTable 0 50 100 [] 1 (by decide) (by decide)
    (fun j hj => by
      have hj0 : j = 0 := by omega
      subst hj0
      rfl)

end Cudf
